import Mathlib

/-!
Verification of the exercise-repetition counter controller (`ERC_Code.py`).

The shallow embedding below translates the program's pure helper functions
and its control-loop body into Lean. Python floats are modelled as exact
rationals (`ℚ`), Python integers as `ℤ`; Python `%` and `//` on a positive
modulus agree with Lean's `Int.emod` / `Int.ediv`, which the definitions use.
The display blank sentinel is `-1`, as in the source.
-/

namespace ERC

/-- Function `update_display_digits(val)` from the source: reduce modulo 10000, split
into thousands/hundreds/tens/ones, blank (−1) the leading positions when the
value fits in fewer digits. -/
def update_display_digits (val : ℤ) : List ℤ :=
  let v := val % 10000
  let t := v / 1000
  let h := (v % 1000) / 100
  let te := (v % 100) / 10
  let o := v % 10
  if v < 10 then [-1, -1, -1, o]
  else if v < 100 then [-1, -1, te, o]
  else if v < 1000 then [-1, h, te, o]
  else [t, h, te, o]

/-- Python `int()` applied to a float: truncation toward zero. -/
def pyTrunc (q : ℚ) : ℤ := if 0 ≤ q then ⌊q⌋ else -⌊-q⌋

/-- The linear calibration map of `get_pot_value`:
`threshold_cm = 5.0 + (raw / 65535) * (92.0 - 5.0)`. -/
def pot_threshold_cm (raw : ℚ) : ℚ := 5 + (raw / 65535) * (92 - 5)

/-- Function `get_pot_value()` from the source, parameterised by the raw analog
reading it samples: returns the raw value together with
`threshold_in = threshold_cm / 2.5`. -/
def get_pot_value (raw : ℕ) : ℕ × ℚ :=
  (raw, pot_threshold_cm (raw : ℚ) / (5/2))

/-- Function `combine_threshold_and_counter(threshold, counter)` from the source:
truncate both inputs to integers, clamp each to [0, 99], and emit
`[t_tens, t_ones, c_tens, c_ones]`. -/
def combine_threshold_and_counter (threshold counter : ℚ) : List ℤ :=
  let t := pyTrunc threshold
  let c := pyTrunc counter
  let t2 := max 0 (min t 99)
  let c2 := max 0 (min c 99)
  [t2 / 10, t2 % 10, c2 / 10, c2 % 10]

/-- The buzzer state: the globals `beep_active`, `beep_start_time` together
with the hardware registers `buzzer.frequency` and `buzzer.duty_cycle`. -/
structure BeepState where
  beep_active : Bool
  beep_start_time : ℚ
  frequency : ℕ
  duty_cycle : ℕ
deriving DecidableEq, Repr

/-- Function `start_beep(frequency)` from the source, with `now` the value of
`time.monotonic()` at the call: unconditionally sets the buzzer frequency,
a 50% duty cycle, the start timestamp and the active flag. The previous
beep state `s` is not consulted by the source function. -/
def start_beep (now : ℚ) (frequency : ℕ) (s : BeepState) : BeepState :=
  { s with
    frequency := frequency
    duty_cycle := 32768
    beep_start_time := now
    beep_active := true }

def pot_tolerance : ℤ := 1000
def beep_duration : ℚ := 3/10
def DISPLAY_INTERVAL : ℚ := 2/1000
def SENSOR_INTERVAL : ℚ := 1/10

/-- The mutable state owned by the control loop. -/
structure LoopState where
  counter : ℤ
  object_inside : Bool
  display_digits : List ℤ
  last_reset_state : Bool
  last_pot_value : ℤ
  beep : BeepState
  current_digit : ℕ
  last_display_time : ℚ
  last_sensor_time : ℚ
deriving DecidableEq, Repr

/-- The threshold in cm the detection logic compares against:
`threshold_cm = threshold * 2.54` with `threshold` the inches value
returned by `get_pot_value`. -/
def loop_threshold_cm (raw : ℕ) : ℚ := (get_pot_value raw).2 * (254/100)

/-- The body of the `if now - last_sensor_time >= SENSOR_INTERVAL` block:
the `try`/`except RuntimeError` around the sensor read and detection logic.
`reading = none` models `sonar.distance` raising `RuntimeError`, in which
case the `except` clause does nothing (`pass`). `raw` is the potentiometer
sample taken inside the `try`. (`last_sensor_time = now` sits after the
`try`/`except` in the source and is applied by `loop_iter`.) -/
def sensor_tick (now : ℚ) (raw : ℕ) (reading : Option ℚ) (s : LoopState) : LoopState :=
  match reading with
  | none => s
  | some distance =>
    let threshold := (get_pot_value raw).2
    let s1 := if |(raw : ℤ) - s.last_pot_value| > pot_tolerance
              then { s with last_pot_value := (raw : ℤ) } else s
    let threshold_cm := threshold * (254/100)
    let detected : Prop := distance ≤ threshold_cm
    let s2 :=
      if detected ∧ s1.object_inside = false then
        { s1 with
          counter := s1.counter + 1
          beep := start_beep now 4000 s1.beep
          object_inside := true }
      else if ¬ detected ∧ s1.object_inside = true then
        { s1 with object_inside := false }
      else s1
    { s2 with display_digits := combine_threshold_and_counter threshold (s2.counter : ℚ) }

/-- The reset-button block of the loop body: zero the counter exactly when
the previous sample read `True` (not pressed, pull-up) and the current
sample reads `False` (pressed), then store the current sample. -/
def reset_step (reset_state : Bool) (s : LoopState) : LoopState :=
  let s1 := if reset_state = false ∧ s.last_reset_state = true
            then { s with counter := 0 } else s
  { s1 with last_reset_state := reset_state }

/-- One iteration of the `while True` loop, parameterised by the inputs the
iteration samples: `now = time.monotonic()`, the reset pin level
`reset_state`, the potentiometer value `raw` and the sensor outcome
`reading` (used only when the sensor interval has elapsed). The second
`time.monotonic()` call in the beep check is modelled as the same instant
`now`. Hardware writes of `refresh_display` are outside the state; its only
state effect is advancing `current_digit`. -/
def loop_iter (now : ℚ) (reset_state : Bool) (raw : ℕ) (reading : Option ℚ)
    (s : LoopState) : LoopState :=
  -- non-blocking buzzer beep
  let s := if s.beep.beep_active = true ∧ now - s.beep.beep_start_time ≥ beep_duration
           then { s with beep := { s.beep with duty_cycle := 0, beep_active := false } }
           else s
  -- refresh display
  let s := if now - s.last_display_time ≥ DISPLAY_INTERVAL
           then { s with current_digit := (s.current_digit + 1) % 4, last_display_time := now }
           else s
  -- reset button
  let s := reset_step reset_state s
  -- sensor read
  if now - s.last_sensor_time ≥ SENSOR_INTERVAL then
    { sensor_tick now raw reading s with last_sensor_time := now }
  else s

/-- Run a sequence of successful sensor ticks (fixed clock and potentiometer
inputs, varying distance readings). -/
def run_ticks (now : ℚ) (raw : ℕ) (ds : List ℚ) (s : LoopState) : LoopState :=
  ds.foldl (fun t d => sensor_tick now raw (some d) t) s

/-- Run a sequence of reset-button samples through `reset_step`. -/
def reset_run (bs : List Bool) (s : LoopState) : LoopState :=
  bs.foldl (fun t b => reset_step b t) s

/-- How many samples of the sequence fire the reset branch (zero the
counter), threading the stored previous state through `reset_step`. -/
def reset_fire_count : List Bool → LoopState → ℕ
  | [], _ => 0
  | b :: bs, s =>
    (if b = false ∧ s.last_reset_state = true then 1 else 0) +
      reset_fire_count bs (reset_step b s)

/-! ## Helper lemmas -/

/-- Truncation `pyTrunc` is the identity on integers. -/
lemma pyTrunc_intCast (n : ℤ) : pyTrunc (n : ℚ) = n := by
  unfold pyTrunc
  split
  · exact Int.floor_intCast n
  · rw [← Int.cast_neg, Int.floor_intCast]
    ring

/-! ## Claim theorems -/

/-- Claim C3: the threshold mapper is the linear map
`distance = 5.0 + (raw / MAX) * (92.0 - 5.0)` over raw in `[0, MAX]`
(MAX = 65535): a raw reading of 0 yields threshold 5.0 (the minimum) and a
reading of 65535 yields threshold 92.0 (the maximum). -/
theorem pot_mapper_linear_endpoints (raw : ℕ) (h : raw ≤ 65535) :
    pot_threshold_cm (raw : ℚ) = 5 + ((raw : ℚ) / 65535) * (92 - 5) ∧
    pot_threshold_cm 0 = 5 ∧ pot_threshold_cm 65535 = 92 := by
  refine ⟨rfl, ?_, ?_⟩ <;> norm_num [pot_threshold_cm]

theorem pot_mapper_linear_endpoints_witness :
    pot_threshold_cm ((0 : ℕ) : ℚ) = 5 + (((0 : ℕ) : ℚ) / 65535) * (92 - 5) ∧
    pot_threshold_cm 0 = 5 ∧ pot_threshold_cm 65535 = 92 :=
  pot_mapper_linear_endpoints 0 (by norm_num)

/-- Claim C2 counterexample: `start_beep` called while a beep is already active is
NOT a no-op — it overwrites the beep start timestamp (and re-asserts
frequency and duty cycle). Concrete input: beep active since time 0 with
frequency 440; calling `start_beep` at time 1 moves the start timestamp. -/
theorem start_beep_not_noop_when_active :
    (⟨true, 0, 440, 32768⟩ : BeepState).beep_active = true ∧
    (start_beep 1 4000 ⟨true, 0, 440, 32768⟩).beep_start_time ≠
      (⟨true, 0, 440, 32768⟩ : BeepState).beep_start_time := by
  refine ⟨rfl, ?_⟩
  simp [start_beep]

/-- Claim C2 amended: calling the beep start operation always re-triggers the beep,
whether or not one is already active: it unconditionally sets the active
flag, the start timestamp to the current time, the requested frequency, and
a 50% duty cycle (32768). -/
theorem start_beep_unconditional (now : ℚ) (freq : ℕ) (s : BeepState) :
    start_beep now freq s = ⟨true, now, freq, 32768⟩ := rfl

/-- Claim C4: a sensor tick whose distance measurement raises a transient failure
(`RuntimeError`, modelled as `reading = none`) skips the detection logic
atomically: the whole loop state — in particular `counter`,
`object_inside` and `display_digits` — is exactly unchanged, and no error
propagates (`sensor_tick` is total). -/
theorem transient_failure_tick_noop (now : ℚ) (raw : ℕ) (s : LoopState) :
    sensor_tick now raw none s = s ∧
    (sensor_tick now raw none s).counter = s.counter ∧
    (sensor_tick now raw none s).object_inside = s.object_inside ∧
    (sensor_tick now raw none s).display_digits = s.display_digits :=
  ⟨rfl, rfl, rfl, rfl⟩

/-- Claim C6: for every pair of integers (t, c) — negative and >99 included — the
two-field packer returns exactly four digits, each in [0,9] (no blank
entries), whose first pair reconstructs to clamp(t,0,99) and whose second
pair reconstructs to clamp(c,0,99). -/
theorem pack_clamps_and_reconstructs (t c : ℤ) :
    ∃ d0 d1 d2 d3 : ℤ,
      combine_threshold_and_counter (t : ℚ) (c : ℚ) = [d0, d1, d2, d3] ∧
      (0 ≤ d0 ∧ d0 ≤ 9) ∧ (0 ≤ d1 ∧ d1 ≤ 9) ∧
      (0 ≤ d2 ∧ d2 ≤ 9) ∧ (0 ≤ d3 ∧ d3 ≤ 9) ∧
      d0 * 10 + d1 = max 0 (min t 99) ∧
      d2 * 10 + d3 = max 0 (min c 99) := by
  refine ⟨max 0 (min t 99) / 10, max 0 (min t 99) % 10,
    max 0 (min c 99) / 10, max 0 (min c 99) % 10, ?_, ?_, ?_, ?_, ?_, ?_, ?_⟩
  · simp [combine_threshold_and_counter, pyTrunc_intCast]
  all_goals omega

/-- Claim C7: for every integer v, the digit encoder first reduces v modulo 10000
(never erroring), returns exactly 4 entries, blanks (−1) exactly the leading
positions beyond the first significant digit, always emits the ones digit,
and in particular encode(0) = [Blank,Blank,Blank,0] and
encode(7) = [Blank,Blank,Blank,7]. -/
theorem encoder_blanking (v : ℤ) :
    update_display_digits v = update_display_digits (v % 10000) ∧
    update_display_digits 0 = [-1, -1, -1, 0] ∧
    update_display_digits 7 = [-1, -1, -1, 7] ∧
    ∃ d0 d1 d2 : ℤ,
      update_display_digits v = [d0, d1, d2, (v % 10000) % 10] ∧
      (d0 = -1 ↔ v % 10000 < 1000) ∧
      (d1 = -1 ↔ v % 10000 < 100) ∧
      (d2 = -1 ↔ v % 10000 < 10) := by
  have h1 : 0 ≤ v % 10000 := Int.emod_nonneg v (by norm_num)
  have h2 : v % 10000 < 10000 := Int.emod_lt_of_pos v (by norm_num)
  have hm : v % 10000 % 10000 = v % 10000 := Int.emod_emod_of_dvd v dvd_rfl
  refine ⟨by simp only [update_display_digits, hm], by decide, by decide, ?_⟩
  simp only [update_display_digits]
  split_ifs with ha hb hc
  · exact ⟨-1, -1, -1, rfl, by omega, by omega, by omega⟩
  · exact ⟨-1, -1, v % 10000 % 100 / 10, rfl, by omega, by omega, by omega⟩
  · exact ⟨-1, v % 10000 % 1000 / 100, v % 10000 % 100 / 10, rfl,
      by omega, by omega, by omega⟩
  · exact ⟨v % 10000 / 1000, v % 10000 % 1000 / 100, v % 10000 % 100 / 10, rfl,
      by omega, by omega, by omega⟩

/-- Claim C10: round-trip of the digit encoder — reading the four entries of
`update_display_digits v` as thousands/hundreds/tens/ones with blanks (−1)
treated as zero reconstructs exactly v mod 10000. -/
theorem encoder_roundtrip (v : ℤ) :
    ∃ d0 d1 d2 d3 : ℤ,
      update_display_digits v = [d0, d1, d2, d3] ∧
      (if d0 = -1 then 0 else d0) * 1000 + (if d1 = -1 then 0 else d1) * 100 +
        (if d2 = -1 then 0 else d2) * 10 + (if d3 = -1 then 0 else d3) =
        v % 10000 := by
  have h1 : 0 ≤ v % 10000 := Int.emod_nonneg v (by norm_num)
  have h2 : v % 10000 < 10000 := Int.emod_lt_of_pos v (by norm_num)
  simp only [update_display_digits]
  split_ifs with ha hb hc
  · refine ⟨-1, -1, -1, v % 10000 % 10, rfl, ?_⟩
    have hy : v % 10000 % 10 ≠ -1 := by omega
    simp only [if_pos rfl, if_neg hy, if_true]
    omega
  · refine ⟨-1, -1, v % 10000 % 100 / 10, v % 10000 % 10, rfl, ?_⟩
    have hx : v % 10000 % 100 / 10 ≠ -1 := by omega
    have hy : v % 10000 % 10 ≠ -1 := by omega
    simp only [if_pos rfl, if_neg hx, if_neg hy, if_true]
    omega
  · refine ⟨-1, v % 10000 % 1000 / 100, v % 10000 % 100 / 10, v % 10000 % 10, rfl, ?_⟩
    have hw : v % 10000 % 1000 / 100 ≠ -1 := by omega
    have hx : v % 10000 % 100 / 10 ≠ -1 := by omega
    have hy : v % 10000 % 10 ≠ -1 := by omega
    simp only [if_pos rfl, if_neg hw, if_neg hx, if_neg hy, if_true]
    omega
  · refine ⟨v % 10000 / 1000, v % 10000 % 1000 / 100, v % 10000 % 100 / 10,
      v % 10000 % 10, rfl, ?_⟩
    have hv : v % 10000 / 1000 ≠ -1 := by omega
    have hw : v % 10000 % 1000 / 100 ≠ -1 := by omega
    have hx : v % 10000 % 100 / 10 ≠ -1 := by omega
    have hy : v % 10000 % 10 ≠ -1 := by omega
    simp only [if_neg hv, if_neg hw, if_neg hx, if_neg hy]
    omega

/-- Claim C9: for every raw analog reading in [0, 65535], the threshold returned
by `get_pot_value` lies in [2.0, 36.8], its integer truncation lies in
[2, 36], the [0,99] clamp inside `combine_threshold_and_counter` never
alters the threshold field, and the displayed threshold digits reconstruct
to exactly int(threshold), for every counter value. -/
theorem threshold_display_exact (raw : ℕ) (h : raw ≤ 65535) :
    2 ≤ (get_pot_value raw).2 ∧ (get_pot_value raw).2 ≤ 368/10 ∧
    2 ≤ pyTrunc (get_pot_value raw).2 ∧ pyTrunc (get_pot_value raw).2 ≤ 36 ∧
    max 0 (min (pyTrunc (get_pot_value raw).2) 99) = pyTrunc (get_pot_value raw).2 ∧
    ∀ c : ℚ, ∃ d0 d1 r2 r3 : ℤ,
      combine_threshold_and_counter (get_pot_value raw).2 c = [d0, d1, r2, r3] ∧
      d0 * 10 + d1 = pyTrunc (get_pot_value raw).2 := by
  have hr0 : (0 : ℚ) ≤ (raw : ℚ) := Nat.cast_nonneg raw
  have hr1 : (raw : ℚ) ≤ 65535 := by exact_mod_cast h
  have hthr : (get_pot_value raw).2 = 2 + (raw : ℚ) * (174/327675) := by
    simp only [get_pot_value, pot_threshold_cm]
    ring
  have h2 : 2 ≤ (get_pot_value raw).2 := by
    rw [hthr]; nlinarith
  have h368 : (get_pot_value raw).2 ≤ 368/10 := by
    rw [hthr]; nlinarith
  have hpt : pyTrunc (get_pot_value raw).2 = ⌊(get_pot_value raw).2⌋ := by
    unfold pyTrunc
    rw [if_pos (by linarith)]
  have hlo : 2 ≤ pyTrunc (get_pot_value raw).2 := by
    rw [hpt]
    exact Int.le_floor.mpr (by exact_mod_cast h2)
  have hhi : pyTrunc (get_pot_value raw).2 ≤ 36 := by
    rw [hpt]
    have h37 : (get_pot_value raw).2 < 37 := by linarith
    have hfl : ⌊(get_pot_value raw).2⌋ < 37 := Int.floor_lt.mpr (by exact_mod_cast h37)
    omega
  refine ⟨h2, h368, hlo, hhi, by omega, ?_⟩
  intro c
  refine ⟨pyTrunc (get_pot_value raw).2 / 10, pyTrunc (get_pot_value raw).2 % 10,
    max 0 (min (pyTrunc c) 99) / 10, max 0 (min (pyTrunc c) 99) % 10, ?_, by omega⟩
  simp only [combine_threshold_and_counter]
  rw [show max 0 (min (pyTrunc (get_pot_value raw).2) 99) =
    pyTrunc (get_pot_value raw).2 by omega]

theorem threshold_display_exact_witness :
    2 ≤ (get_pot_value 0).2 ∧ (get_pot_value 0).2 ≤ 368/10 ∧
    2 ≤ pyTrunc (get_pot_value 0).2 ∧ pyTrunc (get_pot_value 0).2 ≤ 36 ∧
    max 0 (min (pyTrunc (get_pot_value 0).2) 99) = pyTrunc (get_pot_value 0).2 ∧
    ∀ c : ℚ, ∃ d0 d1 r2 r3 : ℤ,
      combine_threshold_and_counter (get_pot_value 0).2 c = [d0, d1, r2, r3] ∧
      d0 * 10 + d1 = pyTrunc (get_pot_value 0).2 :=
  threshold_display_exact 0 (by norm_num)

/-- The stored previous reset sample after a `reset_step` is the sample just
taken. -/
lemma reset_step_last (b : Bool) (s : LoopState) :
    (reset_step b s).last_reset_state = b := rfl

/-- While the stored previous sample reads pressed (`false`), further
pressed samples never fire the reset branch. -/
lemma reset_fire_count_held (m : ℕ) :
    ∀ s : LoopState, s.last_reset_state = false →
      reset_fire_count (List.replicate m false) s = 0 := by
  induction m with
  | zero =>
    intro s _
    rfl
  | succ k ih =>
    intro s hs
    rw [List.replicate_succ]
    simp only [reset_fire_count, hs]
    rw [ih (reset_step false s) (reset_step_last false s)]
    simp

/-- Claim C5: the reset input zeros the counter exactly on the edge where the
previous sample reads not-pressed (`True`, pull-up idle) and the current
sample reads pressed (`False`); a run of n ≥ 1 consecutive pressed
iterations starting from a not-pressed history fires the reset exactly
once. -/
theorem reset_fires_once_per_press (s : LoopState) (n : ℕ) (hn : 1 ≤ n)
    (hlast : s.last_reset_state = true) :
    (∀ (b : Bool) (t : LoopState),
      (reset_step b t).counter =
        if b = false ∧ t.last_reset_state = true then 0 else t.counter) ∧
    reset_fire_count (List.replicate n false) s = 1 := by
  constructor
  · intro b t
    unfold reset_step
    split_ifs <;> rfl
  · obtain ⟨m, rfl⟩ : ∃ m, n = m + 1 := ⟨n - 1, by omega⟩
    rw [List.replicate_succ]
    simp only [reset_fire_count, hlast]
    rw [reset_fire_count_held m (reset_step false s) (reset_step_last false s)]
    simp

theorem reset_fires_once_per_press_witness :
    reset_fire_count (List.replicate 5 false)
      ⟨7, false, [0, 0, 0, 7], true, -1, ⟨false, 0, 440, 0⟩, 0, 0, 0⟩ = 1 :=
  (reset_fires_once_per_press
    ⟨7, false, [0, 0, 0, 7], true, -1, ⟨false, 0, 440, 0⟩, 0, 0, 0⟩ 5
    (by norm_num) rfl).2

/-- Entering the threshold zone from outside: the counting edge. -/
lemma sensor_tick_enter (now : ℚ) (raw : ℕ) (d : ℚ) (s : LoopState)
    (hout : s.object_inside = false) (hd : d ≤ loop_threshold_cm raw) :
    (sensor_tick now raw (some d) s).counter = s.counter + 1 ∧
    (sensor_tick now raw (some d) s).object_inside = true := by
  simp only [loop_threshold_cm] at hd
  simp only [sensor_tick]
  split_ifs <;> simp_all

/-- Remaining inside the threshold zone: no counting. -/
lemma sensor_tick_stay_inside (now : ℚ) (raw : ℕ) (d : ℚ) (s : LoopState)
    (hin : s.object_inside = true) (hd : d ≤ loop_threshold_cm raw) :
    (sensor_tick now raw (some d) s).counter = s.counter ∧
    (sensor_tick now raw (some d) s).object_inside = true := by
  simp only [loop_threshold_cm] at hd
  simp only [sensor_tick]
  split_ifs <;> simp_all

/-- Leaving the threshold zone: state reset, no counting. -/
lemma sensor_tick_exit (now : ℚ) (raw : ℕ) (d : ℚ) (s : LoopState)
    (hin : s.object_inside = true) (hd : ¬ d ≤ loop_threshold_cm raw) :
    (sensor_tick now raw (some d) s).counter = s.counter ∧
    (sensor_tick now raw (some d) s).object_inside = false := by
  simp only [loop_threshold_cm] at hd
  simp only [sensor_tick]
  split_ifs <;> simp_all

lemma run_ticks_cons (now : ℚ) (raw : ℕ) (d : ℚ) (ds : List ℚ) (s : LoopState) :
    run_ticks now raw (d :: ds) s =
      run_ticks now raw ds (sensor_tick now raw (some d) s) := rfl

lemma run_ticks_append (now : ℚ) (raw : ℕ) (xs ys : List ℚ) (s : LoopState) :
    run_ticks now raw (xs ++ ys) s = run_ticks now raw ys (run_ticks now raw xs s) :=
  List.foldl_append _ _ _ _

/-- Repeatedly sampling inside the zone while already inside never counts. -/
lemma run_ticks_inside (now : ℚ) (raw : ℕ) (d : ℚ)
    (hd : d ≤ loop_threshold_cm raw) (N : ℕ) :
    ∀ s : LoopState, s.object_inside = true →
      (run_ticks now raw (List.replicate N d) s).counter = s.counter ∧
      (run_ticks now raw (List.replicate N d) s).object_inside = true := by
  induction N with
  | zero =>
    intro s hs
    exact ⟨rfl, hs⟩
  | succ k ih =>
    intro s hs
    rw [List.replicate_succ, run_ticks_cons]
    obtain ⟨hc, hi⟩ := sensor_tick_stay_inside now raw d s hs hd
    obtain ⟨hc2, hi2⟩ := ih _ hi
    exact ⟨by rw [hc2, hc], hi2⟩

/-- Each in/out pair counts exactly once and returns the state to outside. -/
lemma run_ticks_alternating (now : ℚ) (raw : ℕ) (dIn dOut : ℚ)
    (hin : dIn ≤ loop_threshold_cm raw) (hout : ¬ dOut ≤ loop_threshold_cm raw) (K : ℕ) :
    ∀ s : LoopState, s.object_inside = false →
      (run_ticks now raw (List.flatten (List.replicate K [dIn, dOut])) s).counter
        = s.counter + K ∧
      (run_ticks now raw (List.flatten (List.replicate K [dIn, dOut])) s).object_inside
        = false := by
  induction K with
  | zero =>
    intro s hs
    exact ⟨by simp [run_ticks, List.replicate], hs⟩
  | succ k ih =>
    intro s hs
    rw [List.replicate_succ, List.flatten_cons]
    rw [show ([dIn, dOut] : List ℚ) ++ (List.replicate k [dIn, dOut]).flatten
      = dIn :: dOut :: (List.replicate k [dIn, dOut]).flatten from rfl]
    rw [run_ticks_cons, run_ticks_cons]
    obtain ⟨hc1, hi1⟩ := sensor_tick_enter now raw dIn s hs hin
    obtain ⟨hc2, hi2⟩ := sensor_tick_exit now raw dOut _ hi1 hout
    obtain ⟨hc3, hi3⟩ := ih _ hi2
    refine ⟨?_, hi3⟩
    rw [hc3, hc2, hc1]
    push_cast
    ring

/-- Claim C1: the repetition counter increments exactly once per Outside-to-Inside
transition: starting outside the zone, N ≥ 1 consecutive ticks with
distance ≤ threshold produce exactly 1 increment (not N), and a sequence
alternating below/above the threshold K times produces exactly K
increments. -/
theorem detection_counts_transitions (now : ℚ) (raw : ℕ) (dIn dOut : ℚ)
    (s : LoopState) (hin : dIn ≤ loop_threshold_cm raw)
    (hout : ¬ dOut ≤ loop_threshold_cm raw) (hs : s.object_inside = false)
    (N K : ℕ) (hN : 1 ≤ N) :
    (run_ticks now raw (List.replicate N dIn) s).counter = s.counter + 1 ∧
    (run_ticks now raw (List.flatten (List.replicate K [dIn, dOut])) s).counter
      = s.counter + K := by
  constructor
  · obtain ⟨m, rfl⟩ : ∃ m, N = m + 1 := ⟨N - 1, by omega⟩
    rw [List.replicate_succ, run_ticks_cons]
    obtain ⟨hc, hi⟩ := sensor_tick_enter now raw dIn s hs hin
    obtain ⟨hc2, _⟩ := run_ticks_inside now raw dIn hin m _ hi
    rw [hc2, hc]
  · exact (run_ticks_alternating now raw dIn dOut hin hout K s hs).1

theorem detection_counts_transitions_witness :
    (run_ticks 0 0 (List.replicate 3 1)
        ⟨0, false, [], true, -1, ⟨false, 0, 440, 0⟩, 0, 0, 0⟩).counter = 0 + 1 ∧
    (run_ticks 0 0 (List.flatten (List.replicate 2 [1, 10]))
        ⟨0, false, [], true, -1, ⟨false, 0, 440, 0⟩, 0, 0, 0⟩).counter = 0 + 2 := by
  have := detection_counts_transitions 0 0 1 10
    ⟨0, false, [], true, -1, ⟨false, 0, 440, 0⟩, 0, 0, 0⟩
    (by norm_num [loop_threshold_cm, get_pot_value, pot_threshold_cm])
    (by norm_num [loop_threshold_cm, get_pot_value, pot_threshold_cm])
    rfl 3 2 (by norm_num)
  exact_mod_cast this

/-- A successful sensor tick always ends by recomputing the display digits
from the current threshold and the post-detection counter. -/
lemma sensor_tick_display (now : ℚ) (raw : ℕ) (d : ℚ) (t : LoopState) :
    (sensor_tick now raw (some d) t).display_digits =
      combine_threshold_and_counter (get_pot_value raw).2
        ((sensor_tick now raw (some d) t).counter : ℚ) := by
  simp only [sensor_tick]

/-- Claim C8: a reset event mutates only the counter and the stored previous
button state; the reset branch does not recompute `display_digits`, so on
an iteration with no sensor tick the display still holds the pre-reset
digits, and only a successful sensor tick recomputes `display_digits`
(from the current threshold and the then-current counter). -/
theorem reset_leaves_display_stale (s : LoopState) (now : ℚ) (b : Bool)
    (raw : ℕ) (rd : Option ℚ) :
    ((reset_step b s).object_inside = s.object_inside ∧
     (reset_step b s).display_digits = s.display_digits ∧
     (reset_step b s).last_pot_value = s.last_pot_value ∧
     (reset_step b s).beep = s.beep ∧
     (reset_step b s).current_digit = s.current_digit ∧
     (reset_step b s).last_display_time = s.last_display_time ∧
     (reset_step b s).last_sensor_time = s.last_sensor_time) ∧
    (now - s.last_sensor_time < SENSOR_INTERVAL →
      (loop_iter now b raw rd s).display_digits = s.display_digits) ∧
    (∀ d : ℚ, rd = some d → SENSOR_INTERVAL ≤ now - s.last_sensor_time →
      (loop_iter now b raw rd s).display_digits =
        combine_threshold_and_counter (get_pot_value raw).2
          ((loop_iter now b raw rd s).counter : ℚ)) ∧
    (rd = none → (loop_iter now b raw rd s).display_digits = s.display_digits) := by
  refine ⟨?_, ?_, ?_, ?_⟩
  · unfold reset_step
    split_ifs <;> exact ⟨rfl, rfl, rfl, rfl, rfl, rfl, rfl⟩
  · intro hlt
    simp only [loop_iter, reset_step]
    split_ifs <;> first | rfl | (exfalso; linarith)
  · intro d hd hge
    subst hd
    simp only [loop_iter, reset_step]
    split_ifs <;> exact sensor_tick_display now raw d _
  · intro hd
    subst hd
    simp only [loop_iter, reset_step]
    split_ifs <;> rfl

theorem reset_leaves_display_stale_witness :
    (loop_iter 0 false 0 none
        ⟨7, false, [9, 9, 9, 9], true, -1, ⟨false, 0, 440, 0⟩, 0, 0, 0⟩).display_digits
      = [9, 9, 9, 9] ∧
    (loop_iter 1 false 0 (some 1)
        ⟨7, false, [9, 9, 9, 9], true, -1, ⟨false, 0, 440, 0⟩, 0, 0, 0⟩).display_digits
      = combine_threshold_and_counter (get_pot_value 0).2
          (((loop_iter 1 false 0 (some 1)
            ⟨7, false, [9, 9, 9, 9], true, -1, ⟨false, 0, 440, 0⟩, 0, 0, 0⟩).counter : ℚ)) ∧
    (loop_iter 1 false 0 none
        ⟨7, false, [9, 9, 9, 9], true, -1, ⟨false, 0, 440, 0⟩, 0, 0, 0⟩).display_digits
      = [9, 9, 9, 9] :=
  ⟨(reset_leaves_display_stale
      ⟨7, false, [9, 9, 9, 9], true, -1, ⟨false, 0, 440, 0⟩, 0, 0, 0⟩ 0 false 0 none).2.1
      (by norm_num [SENSOR_INTERVAL]),
   (reset_leaves_display_stale
      ⟨7, false, [9, 9, 9, 9], true, -1, ⟨false, 0, 440, 0⟩, 0, 0, 0⟩ 1 false 0 (some 1)).2.2.1
      1 rfl (by norm_num [SENSOR_INTERVAL]),
   (reset_leaves_display_stale
      ⟨7, false, [9, 9, 9, 9], true, -1, ⟨false, 0, 440, 0⟩, 0, 0, 0⟩ 1 false 0 none).2.2.2
      rfl⟩

end ERC
